import Mathlib

/-!
Verification of the Bot Storm session-pool manager (src/ass.js, src/botattack.js).

The JavaScript source is shallowly embedded: the process-wide `stats` record,
the per-bot mutable state of `UltraBot` / `EnhancedBot`, and the pool state of
`UltraCommandInterface` / `CommandInterface` become Lean structures; each event
handler installed in `setupListeners` becomes a pure function from
(bot state, stats) to (bot state, stats); console fan-out operations become
functions over the list of bots.  Counters are `Nat` (they are only ever
incremented in the source).
-/

/-- Process-wide counters (src/ass.js lines 88-100, src/botattack.js lines 77-85).
Field names follow the source (`timeout`, not the spec name timedOut). -/
structure Stats where
  sent : Nat
  joined : Nat
  kicked : Nat
  timeout : Nat
  failed : Nat
  proxiesFound : Nat
  proxiesWorking : Nat
  messagesSent : Nat
  commandsExecuted : Nat
  reconnects : Nat
deriving DecidableEq, Repr

/-- The all-zero initial stats record. -/
def stats0 : Stats :=
  { sent := 0, joined := 0, kicked := 0, timeout := 0, failed := 0
    proxiesFound := 0, proxiesWorking := 0, messagesSent := 0
    commandsExecuted := 0, reconnects := 0 }

/-- Mutable per-bot state of class `UltraBot` (src/ass.js lines 320-339):
`connected`, `reconnectAttempts`, `maxReconnects`, the generated `username`,
and whether `this.bot` is set (`createBot` succeeded, so the handle exists). -/
structure UltraBot where
  username : String
  connected : Bool
  hasBot : Bool
  reconnectAttempts : Nat
  maxReconnects : Nat
deriving DecidableEq, Repr

/-- Lifecycle events delivered by the protocol client to the listeners
installed in `UltraBot.setupListeners` (src/ass.js lines 421-472). -/
inductive BotEvent where
  | login
  | kicked (reason : String)
  | ended (reason : Option String)
  | error (msg : String)
deriving DecidableEq, Repr

/-- Method `UltraBot.attemptReconnect` (src/ass.js lines 558-575): when
`reconnectAttempts >= maxReconnects` it returns without doing anything;
otherwise it increments `reconnectAttempts` and `stats.reconnects` and
schedules a reconnect timer.  The returned Bool records whether a reconnect
timer was scheduled. -/
def UltraBot.attemptReconnect (b : UltraBot) (st : Stats) : UltraBot × Stats × Bool :=
  if b.maxReconnects ≤ b.reconnectAttempts then (b, st, false)
  else ({ b with reconnectAttempts := b.reconnectAttempts + 1 },
        { st with reconnects := st.reconnects + 1 }, true)

/-- The lifecycle event handlers of `UltraBot.setupListeners`
(src/ass.js lines 421-472), as one dispatch function:
login sets `connected`, increments `stats.joined`, resets `reconnectAttempts`;
kicked clears `connected`, increments `stats.kicked`, calls `attemptReconnect`;
end clears `connected`, increments `stats.timeout`, calls `attemptReconnect`;
error only logs.  The Bool is the scheduled-reconnect flag of
`attemptReconnect`. -/
def handleEvent (b : UltraBot) (st : Stats) : BotEvent → UltraBot × Stats × Bool
  | .login =>
      ({ b with connected := true, reconnectAttempts := 0 },
       { st with joined := st.joined + 1 }, false)
  | .kicked _ =>
      UltraBot.attemptReconnect { b with connected := false }
        { st with kicked := st.kicked + 1 }
  | .ended _ =>
      UltraBot.attemptReconnect { b with connected := false }
        { st with timeout := st.timeout + 1 }
  | .error _ => (b, st, false)

/-- Folding a sequence of lifecycle events through the handlers of one bot. -/
def processEvents (b : UltraBot) (st : Stats) (evs : List BotEvent) : UltraBot × Stats :=
  evs.foldl (fun acc e => ((handleEvent acc.1 acc.2 e).1, (handleEvent acc.1 acc.2 e).2.1)) (b, st)

/-- Method `UltraBot.sendChat` (src/ass.js lines 582-588): only when `this.bot` is
set and `connected` is true does it emit the chat and increment
`stats.messagesSent`. -/
def UltraBot.sendChat (b : UltraBot) (st : Stats) : Stats :=
  if b.hasBot && b.connected then { st with messagesSent := st.messagesSent + 1 } else st

/-- Method `UltraBot.executeCommand` (src/ass.js lines 590-597): only when `this.bot`
is set and `connected` is true does it emit the command and increment
`stats.commandsExecuted`. -/
def UltraBot.executeCommand (b : UltraBot) (st : Stats) : Stats :=
  if b.hasBot && b.connected then { st with commandsExecuted := st.commandsExecuted + 1 } else st

/-- Method `UltraCommandInterface.broadcast` (src/ass.js lines 743-756): an empty
message returns immediately; otherwise `sendChat` is fanned out to every
member with `connected` set, counting them, and one log line is emitted.
Result: (new stats, count sent, whether the per-call log line was emitted). -/
def UltraCommandInterface.broadcast (message : String) (bots : List UltraBot) (st : Stats) :
    Stats × Nat × Bool :=
  if message = "" then (st, 0, false)
  else
    let r := bots.foldl
      (fun acc b => if b.connected then (UltraBot.sendChat b acc.1, acc.2 + 1) else acc) (st, 0)
    (r.1, r.2, true)

/-- Method `UltraCommandInterface.executeCommand` (src/ass.js lines 758-771):
the `dispatch` fan-out, same shape as `broadcast`. -/
def UltraCommandInterface.executeCommand (command : String) (bots : List UltraBot) (st : Stats) :
    Stats × Nat × Bool :=
  if command = "" then (st, 0, false)
  else
    let r := bots.foldl
      (fun acc b => if b.connected then (UltraBot.executeCommand b acc.1, acc.2 + 1) else acc) (st, 0)
    (r.1, r.2, true)

/-- Method `UltraBot.disconnect` (src/ass.js lines 612-617): when `this.bot` is set it
calls `this.bot.quit()` and clears `connected`.  The Nat counts the `quit`
calls issued (0 or 1). -/
def UltraBot.disconnect (b : UltraBot) : UltraBot × Nat :=
  if b.hasBot then ({ b with connected := false }, 1) else (b, 0)

/-- Pool state of `UltraCommandInterface` together with the process flag
`isRunning` (src/ass.js lines 71, 621-634).  `quitCalls` counts the
`handle.quit()` invocations issued so far (the externally visible teardown
effect). -/
structure PoolState where
  running : Bool
  bots : List UltraBot
  stats : Stats
  quitCalls : Nat
deriving DecidableEq, Repr

/-- Method `UltraCommandInterface.stopAll` (src/ass.js lines 846-856): sets
`isRunning = false`, calls `disconnect` on every member, then empties the
member list.  `showFinalStats` only prints, so `stats` is unchanged. -/
def UltraCommandInterface.stopAll (p : PoolState) : PoolState :=
  { running := false
    bots := []
    stats := p.stats
    quitCalls := p.quitCalls + (p.bots.map (fun b => (UltraBot.disconnect b).2)).sum }

/-- Pool state of the botattack.js `CommandInterface` (lines 325-334): only a
member list, no running flag. -/
structure BotPool where
  bots : List UltraBot
  quitCalls : Nat
deriving DecidableEq, Repr

/-- Method `CommandInterface.stopAll` (src/botattack.js lines 410-414): calls
`disconnect` on every member and empties the member list. -/
def CommandInterface.stopAll (p : BotPool) : BotPool :=
  { bots := []
    quitCalls := p.quitCalls + (p.bots.map (fun b => (UltraBot.disconnect b).2)).sum }

/-- A bot fresh from the `UltraBot` constructor, already connected:
`reconnectAttempts = 0`, `maxReconnects = 3` (src/ass.js lines 334-335). -/
def demoBot : UltraBot :=
  { username := "StormX", connected := true, hasBot := true
    reconnectAttempts := 0, maxReconnects := 3 }

/-- The deferred callbacks created by a Session in src/ass.js:
the reconnect timer body from `attemptReconnect` (lines 570-574), the ping
success continuation of `connect` (line 351), the ping failure continuation
(lines 352-354), and the join-delay timer scheduled by the ping success
continuation (line 351, firing `actualConnect`). -/
inductive DeferredCallback where
  | reconnectTimer
  | pingDone
  | pingFailed
  | joinDelayTimer
deriving DecidableEq, Repr

/-- Firing one deferred callback under the current `isRunning` flag, with the
outcome of a ping that the callback may start.  First component: whether
`actualConnect` (a new connection attempt, `mineflayer.createBot`) is invoked
now; second: the deferred callbacks the body newly schedules.  Bodies from
src/ass.js: the reconnect timer runs `if (isRunning) this.connect()` where
`connect` starts a ping (lines 348-355, 570-574); the ping success
continuation schedules `actualConnect` after `joinDelay` with no check of
`isRunning` (line 351); the ping failure continuation calls `actualConnect`
directly with no check (lines 352-354); the join-delay timer calls
`actualConnect` with no check. -/
def fireDeferred (isRunning pingOk : Bool) : DeferredCallback → Bool × List DeferredCallback
  | .reconnectTimer =>
      if isRunning then (false, [if pingOk then .pingDone else .pingFailed]) else (false, [])
  | .pingDone => (false, [.joinDelayTimer])
  | .pingFailed => (true, [])
  | .joinDelayTimer => (true, [])

/-- JavaScript substring containment (`String.prototype.includes`), on char
lists: `matchAt` checks that the second list starts the first. -/
def matchAt : List Char → List Char → Bool
  | _, [] => true
  | [], _ :: _ => false
  | c :: cs, d :: ds => c = d && matchAt cs ds

/-- Containment of `sub` anywhere in `s`. -/
def containsSub : List Char → List Char → Bool
  | [], sub => sub.isEmpty
  | s@(_ :: rest), sub => matchAt s sub || containsSub rest sub

/-- Expression `text.includes(pattern)` of the source, on Lean strings. -/
def includesStr (s sub : String) : Bool := containsSub s.data sub.data

/-- Expression `this.username.split.reverse.join` deriving the password from the username (src/ass.js line 485 etc.). -/
def reverseStr (s : String) : String := ⟨s.data.reverse⟩

/-- The auto-responder of the message listener (src/ass.js lines 483-506; the
botattack.js variant at lines 286-302 lacks the third branch): four
independent substring checks, each of which emits its own chat reply; the
returned list is the sequence of chat calls emitted for one inbound message. -/
def autoRespond (username text : String) : List String :=
  let password := reverseStr username
  (if includesStr text "/register" then ["/register " ++ password ++ " " ++ password] else []) ++
  (if includesStr text "/login" then ["/login " ++ password] else []) ++
  (if includesStr text "Please, login with the command" then ["/login " ++ password] else []) ++
  (if includesStr text "premium" then ["/nlogin"] else [])

/-- The JavaScript `x || null` coercion applied to an optional array element:
`undefined` (out of range) and the empty string are falsy and yield null. -/
def jsOrNull : Option String → Option String
  | none => none
  | some s => if s = "" then none else some s

/-- Relay assignment of the ass.js `spawnBot`
(`workingProxies[botIndex % workingProxies.length] || null`,
src/ass.js lines 1074 and 2106). -/
def assignProxyRR (workingProxies : List String) (botIndex : Nat) : Option String :=
  jsOrNull (workingProxies.get? (botIndex % workingProxies.length))

/-- Relay assignment of the botattack.js `spawnBot`
(`workingProxies[botIndex] || null`, src/botattack.js line 528). -/
def assignProxySeq (workingProxies : List String) (botIndex : Nat) : Option String :=
  jsOrNull (workingProxies.get? botIndex)

/-- Number of session indices below `m` that round-robin onto proxy
position `j` out of `k`. -/
def rrCount (m k j : Nat) : Nat := ((List.range m).filter (fun i => i % k == j)).length

/-- The whitespace characters removed by JavaScript `String.prototype.trim`
(ASCII subset: space, tab, newline, carriage return, vertical tab, form
feed). -/
def isJsSpace (c : Char) : Bool :=
  c == ' ' || c == '\t' || c == '\n' || c == '\r' || c.toNat == 11 || c.toNat == 12

/-- Expression `line.trim` (src/ass.js line 274): strip leading and trailing
whitespace. -/
def jsTrim (s : String) : String :=
  ⟨((s.data.dropWhile isJsSpace).reverse.dropWhile isJsSpace).reverse⟩

/-- Expression `line.includes` testing for a colon (src/ass.js line 273). -/
def hasColon (s : String) : Bool := s.data.any (fun c => c == ':')

/-- Consume one or more decimal digits, the unit of the regex `\d+`; fails on
a non-digit or empty input. -/
def chompDigits : List Char → Option (List Char)
  | [] => none
  | c :: cs => if c.isDigit then some (cs.dropWhile Char.isDigit) else none

/-- Consume exactly the given separator character. -/
def expect (x : Char) : List Char → Option (List Char)
  | [] => none
  | c :: cs => if c = x then some cs else none

/-- Consume a digit group followed by one separator. -/
def chompGroup (sep : Char) (cs : List Char) : Option (List Char) :=
  (chompDigits cs).bind (expect sep)

/-- The anchored regex of src/ass.js line 275,
four dot-separated digit groups, a colon and a final digit group; the parse
succeeds exactly when the remainder is empty. -/
def ipPortShape (cs : List Char) : Option (List Char) :=
  ((((chompGroup '.' cs).bind (chompGroup '.')).bind (chompGroup '.')).bind
    (chompGroup ':')).bind chompDigits

/-- A trimmed line matches the strict ip:port shape. -/
def isProxyLine (s : String) : Bool :=
  match ipPortShape s.data with
  | some [] => true
  | _ => false

/-- Expression `data.split` at newlines, of src/ass.js line 272, by structural recursion on the
characters: the accumulator holds the current line reversed. -/
def splitCharAux (sep : Char) : List Char → List Char → List (List Char)
  | [], cur => [cur.reverse]
  | c :: cs, cur =>
    if c = sep then cur.reverse :: splitCharAux sep cs []
    else splitCharAux sep cs (c :: cur)

/-- Split a string at newlines, exactly as the JavaScript split: an empty
string yields one empty line, a trailing newline yields a final empty line. -/
def jsSplitNewline (s : String) : List String :=
  (splitCharAux '\n' s.data []).map (fun cs => ⟨cs⟩)

/-- Function `fetchFromUrl` (src/ass.js lines 266-280): split the response body on
newlines, keep lines containing a colon, trim each, keep those matching the
strict ip:port regex. -/
def fetchFromUrl (data : String) : List String :=
  (((jsSplitNewline data).filter (fun line => hasColon line)).map jsTrim).filter
    (fun line => isProxyLine line)

/-- The fetch loop of `fetchProxiesWithProgress` (src/ass.js lines 244-252):
each source either produced a body (`some data`) or its fetch failed
(`none`, caught and skipped); all produced endpoint lists are concatenated. -/
def gatherAll (results : List (Option String)) : List String :=
  results.foldl (fun acc r => match r with | some d => acc ++ fetchFromUrl d | none => acc) []

/-- Expression spreading `new Set(allProxies)` back to an array (src/ass.js line 254): deduplicate keeping the
first occurrence of each element. -/
def jsSetDedup (l : List String) : List String :=
  l.foldl (fun acc x => if x ∈ acc then acc else acc ++ [x]) []

/-- Function `fetchProxiesWithProgress` (src/ass.js lines 227-264) restricted to its
data flow: gather all sources, tolerate per-source failure, deduplicate. -/
def fetchProxiesWithProgress (results : List (Option String)) : List String :=
  jsSetDedup (gatherAll results)

/-- Claim C1 counterexample: a remote kick whose transport subsequently closes
is counted twice.  Processing the event sequence kicked-then-end from a fresh
connected bot leaves `stats.kicked = 1` and `stats.timeout = 1`: the lifecycle
instance is counted in two of the counters, not exactly one, because the end
listener increments `timeout` unconditionally (src/ass.js lines 460-467) even
after the kicked listener already incremented `kicked` (lines 450-458). -/
theorem c1_counterexample :
    (processEvents demoBot stats0 [.kicked "You were kicked", .ended none]).2.kicked = 1 ∧
    (processEvents demoBot stats0 [.kicked "You were kicked", .ended none]).2.timeout = 1 ∧
    ¬ ((processEvents demoBot stats0 [.kicked "You were kicked", .ended none]).2.kicked +
       (processEvents demoBot stats0 [.kicked "You were kicked", .ended none]).2.timeout +
       (processEvents demoBot stats0 [.kicked "You were kicked", .ended none]).2.failed = 1) := by
  refine ⟨rfl, rfl, ?_⟩
  decide

/-- Claim C1 (amended): each terminating event increments exactly its own
counter — a kicked event increments only `kicked`, an end event increments
only `timeout`, and neither touches `failed` — but the handlers are
independent, so a lifecycle terminated by a remote kick whose transport then
closes is counted in both `kicked` and `timeout`: two increments across
{failed, kicked, timeout} for that one lifecycle instance. -/
theorem c1_amended (b : UltraBot) (st : Stats) (reason : String) (r2 : Option String) :
    (handleEvent b st (.kicked reason)).2.1.kicked = st.kicked + 1 ∧
    (handleEvent b st (.kicked reason)).2.1.timeout = st.timeout ∧
    (handleEvent b st (.kicked reason)).2.1.failed = st.failed ∧
    (handleEvent b st (.ended r2)).2.1.timeout = st.timeout + 1 ∧
    (handleEvent b st (.ended r2)).2.1.kicked = st.kicked ∧
    (handleEvent b st (.ended r2)).2.1.failed = st.failed ∧
    (processEvents b st [.kicked reason, .ended r2]).2.kicked +
      (processEvents b st [.kicked reason, .ended r2]).2.timeout +
      (processEvents b st [.kicked reason, .ended r2]).2.failed =
      st.kicked + st.timeout + st.failed + 2 := by
  simp only [handleEvent, UltraBot.attemptReconnect, processEvents, List.foldl]
  repeat' constructor
  all_goals split <;> simp <;> try split <;> simp
  all_goals omega

/-- Claim C9: on the login event (`Authenticating` to `Active`), the session
increments `stats.joined` by exactly one, leaves every other counter
unchanged, resets `reconnectAttempts` to 0 regardless of its prior value, and
sets `connected` (src/ass.js lines 422-431). -/
theorem c9_holds (b : UltraBot) (st : Stats) :
    (handleEvent b st .login).1.reconnectAttempts = 0 ∧
    (handleEvent b st .login).1.connected = true ∧
    (handleEvent b st .login).2.1 = { st with joined := st.joined + 1 } ∧
    (handleEvent b st .login).2.2 = false := by
  exact ⟨rfl, rfl, rfl, rfl⟩

/-- One handler step preserves the reconnect bound and never changes
`maxReconnects`. -/
lemma handleEvent_reconnect_invariant (b : UltraBot) (st : Stats) (e : BotEvent)
    (h : b.reconnectAttempts ≤ b.maxReconnects) :
    (handleEvent b st e).1.reconnectAttempts ≤ (handleEvent b st e).1.maxReconnects ∧
    (handleEvent b st e).1.maxReconnects = b.maxReconnects := by
  cases e with
  | login => exact ⟨Nat.zero_le _, rfl⟩
  | error m => exact ⟨h, rfl⟩
  | kicked r =>
    simp only [handleEvent, UltraBot.attemptReconnect]
    split
    · exact ⟨h, rfl⟩
    · rename_i hc
      have hc' : ¬ b.maxReconnects ≤ b.reconnectAttempts := hc
      refine ⟨?_, rfl⟩
      show b.reconnectAttempts + 1 ≤ b.maxReconnects
      omega
  | ended r =>
    simp only [handleEvent, UltraBot.attemptReconnect]
    split
    · exact ⟨h, rfl⟩
    · rename_i hc
      have hc' : ¬ b.maxReconnects ≤ b.reconnectAttempts := hc
      refine ⟨?_, rfl⟩
      show b.reconnectAttempts + 1 ≤ b.maxReconnects
      omega

/-- Claim C3: starting from any state satisfying the constructor invariant
`reconnectAttempts ≤ maxReconnects`, no sequence of lifecycle events ever
pushes `reconnectAttempts` past `maxReconnects` (and `maxReconnects` itself
never changes); moreover, once the cap is consumed, an entry to Ended (a
kicked or end event) schedules no reconnect timer, leaves `reconnectAttempts`
and `stats.reconnects` unchanged, and leaves the session disconnected
(src/ass.js lines 558-575). -/
theorem c3_holds (b : UltraBot) (st : Stats) (evs : List BotEvent)
    (h : b.reconnectAttempts ≤ b.maxReconnects) :
    ((processEvents b st evs).1.reconnectAttempts ≤ (processEvents b st evs).1.maxReconnects ∧
     (processEvents b st evs).1.maxReconnects = b.maxReconnects) ∧
    (∀ c : UltraBot, ∀ st' : Stats, c.maxReconnects ≤ c.reconnectAttempts → ∀ r rs,
      (handleEvent c st' (.ended r)).2.2 = false ∧
      (handleEvent c st' (.ended r)).1.connected = false ∧
      (handleEvent c st' (.ended r)).1.reconnectAttempts = c.reconnectAttempts ∧
      (handleEvent c st' (.ended r)).2.1.reconnects = st'.reconnects ∧
      (handleEvent c st' (.kicked rs)).2.2 = false) := by
  constructor
  · induction evs generalizing b st with
    | nil => exact ⟨h, rfl⟩
    | cons e evs ih =>
      obtain ⟨h1, h2⟩ := handleEvent_reconnect_invariant b st e h
      have hstep := ih (handleEvent b st e).1 (handleEvent b st e).2.1 h1
      simp only [processEvents, List.foldl] at hstep ⊢
      exact ⟨hstep.1, hstep.2.trans h2⟩
  · intro c st' hcap r rs
    simp only [handleEvent, UltraBot.attemptReconnect]
    rw [if_pos hcap, if_pos hcap]
    exact ⟨rfl, rfl, rfl, rfl, rfl⟩

/-- Witness for C3 at a concrete run: a fresh bot (cap 3) that is kicked once
and then loses its transport four times never exceeds the cap. -/
theorem c3_witness :
    (processEvents demoBot stats0
        [.kicked "a", .ended none, .ended none, .ended (some "b"), .ended none]).1.reconnectAttempts ≤
      (processEvents demoBot stats0
        [.kicked "a", .ended none, .ended none, .ended (some "b"), .ended none]).1.maxReconnects := by
  exact (c3_holds demoBot stats0
    [.kicked "a", .ended none, .ended none, .ended (some "b"), .ended none] (by decide)).1.1

/-- The `quit`-call count of one member teardown, as an indicator. -/
lemma disconnect_quit_count (b : UltraBot) :
    (UltraBot.disconnect b).2 = if b.hasBot then 1 else 0 := by
  unfold UltraBot.disconnect
  split <;> simp_all

/-- The number of `quit` calls issued by a member sweep equals the number of
members holding a live transport handle. -/
lemma disconnect_sweep_count (l : List UltraBot) :
    (l.map (fun b => (UltraBot.disconnect b).2)).sum = (l.filter (fun b => b.hasBot)).length := by
  have hmap : l.map (fun b => (UltraBot.disconnect b).2) =
      l.map (fun b => if b.hasBot then 1 else 0) := by
    simp [disconnect_quit_count]
  rw [hmap]
  clear hmap
  induction l with
  | nil => rfl
  | cons b l ih =>
    simp only [List.map_cons, List.sum_cons, List.filter_cons]
    cases hb : b.hasBot <;> simp [hb, ih, Nat.add_comm]

/-- Claim C5: pool shutdown is idempotent.  For the ass.js
`UltraCommandInterface.stopAll`: a second call reproduces exactly the state
after the first (`running` false, member set empty, stats untouched, no
additional `quit` issued); the first call tears down each member holding a
transport exactly once.  The botattack.js `CommandInterface.stopAll` is
likewise idempotent. -/
theorem c5_holds (p : PoolState) (q : BotPool) :
    UltraCommandInterface.stopAll (UltraCommandInterface.stopAll p) =
      UltraCommandInterface.stopAll p ∧
    (UltraCommandInterface.stopAll p).running = false ∧
    (UltraCommandInterface.stopAll p).bots = [] ∧
    (UltraCommandInterface.stopAll p).stats = p.stats ∧
    (UltraCommandInterface.stopAll p).quitCalls =
      p.quitCalls + (p.bots.filter (fun b => b.hasBot)).length ∧
    CommandInterface.stopAll (CommandInterface.stopAll q) = CommandInterface.stopAll q := by
  refine ⟨?_, rfl, rfl, rfl, ?_, ?_⟩
  · simp [UltraCommandInterface.stopAll]
  · simp [UltraCommandInterface.stopAll, disconnect_sweep_count]
  · simp [CommandInterface.stopAll]

/-- Claim C10: broadcasting or dispatching an empty text is a complete no-op:
the guard returns before the fan-out loop, so no member is touched, the stats
record is returned unchanged, the count is 0, and no per-call log line is
emitted (src/ass.js lines 744 and 759). -/
theorem c10_holds (bots : List UltraBot) (st : Stats) :
    UltraCommandInterface.broadcast "" bots st = (st, 0, false) ∧
    UltraCommandInterface.executeCommand "" bots st = (st, 0, false) := by
  exact ⟨rfl, rfl⟩

/-- The broadcast fan-out loop: starting from any accumulator, it adds one
`messagesSent` and one to the count for every connected member (each of which
holds a transport handle), and touches nothing else. -/
lemma broadcast_fold (bots : List UltraBot) (st : Stats) (n : Nat)
    (hinv : ∀ b ∈ bots, b.connected = true → b.hasBot = true) :
    bots.foldl
      (fun acc b => if b.connected then (UltraBot.sendChat b acc.1, acc.2 + 1) else acc) (st, n) =
    ({ st with messagesSent := st.messagesSent + (bots.filter (fun b => b.connected)).length },
     n + (bots.filter (fun b => b.connected)).length) := by
  induction bots generalizing st n with
  | nil => simp
  | cons b bots ih =>
    have htail := ih st n (fun c hc => hinv c (List.mem_cons_of_mem b hc))
    by_cases hb : b.connected = true
    · have hbot : b.hasBot = true := hinv b (List.mem_cons_self b bots) hb
      have hsend : UltraBot.sendChat b st = { st with messagesSent := st.messagesSent + 1 } := by
        simp [UltraBot.sendChat, hbot, hb]
      rw [List.foldl_cons, if_pos hb, hsend,
          ih { st with messagesSent := st.messagesSent + 1 } (n + 1)
            (fun c hc => hinv c (List.mem_cons_of_mem b hc))]
      simp [List.filter_cons, hb, Nat.add_assoc, Nat.add_comm, Nat.add_left_comm]
    · simp only [List.foldl_cons, List.filter_cons, if_neg hb, htail]

/-- Claim C4: for a non-empty text, `broadcast` returns exactly the number of
members whose `connected` flag is set at the time of the call; the global
`messagesSent` counter rises by exactly that number (one per Active member);
every other counter is untouched; non-Active members are skipped silently
(src/ass.js lines 743-756 and 582-588).  The hypothesis `hinv` is the
constructor invariant that a connected member holds a transport handle
(`connected` is only ever set inside the login listener of an existing
handle, src/ass.js lines 422-424). -/
theorem c4_holds (message : String) (bots : List UltraBot) (st : Stats)
    (hmsg : ¬ message = "")
    (hinv : ∀ b ∈ bots, b.connected = true → b.hasBot = true) :
    UltraCommandInterface.broadcast message bots st =
      ({ st with messagesSent := st.messagesSent + (bots.filter (fun b => b.connected)).length },
       (bots.filter (fun b => b.connected)).length, true) := by
  unfold UltraCommandInterface.broadcast
  rw [if_neg hmsg]
  simp only [broadcast_fold bots st 0 hinv]
  simp

/-- Witness for C4: broadcasting a concrete message to a pool with 2 of 3
members connected sends exactly 2 messages. -/
theorem c4_witness :
    UltraCommandInterface.broadcast "hi"
        [demoBot, { demoBot with username := "GhostY", connected := false },
         { demoBot with username := "NinjaZ" }] stats0 =
      ({ stats0 with messagesSent := 2 }, 2, true) := by
  rw [c4_holds "hi"
    [demoBot, { demoBot with username := "GhostY", connected := false },
     { demoBot with username := "NinjaZ" }] stats0 (by decide) (by decide)]
  rfl

/-- Claim C8 counterexample: after shutdown has set `isRunning = false`, the
ping failure continuation of an in-flight connect attempt still invokes
`actualConnect`, and a pending join-delay timer still invokes
`actualConnect` — a new connection attempt IS issued after shutdown, so the
claim that every deferred callback checks `running` and aborts is false. -/
theorem c8_counterexample :
    (fireDeferred false false .pingFailed).1 = true ∧
    (fireDeferred false true .joinDelayTimer).1 = true ∧
    (fireDeferred false true .pingDone).2 = [.joinDelayTimer] := by
  exact ⟨rfl, rfl, rfl⟩

/-- Claim C8 (amended): only the reconnect timer callback checks the pool
`running` flag before acting and aborts on shutdown; the ping success
continuation, the ping failure continuation and the join-delay timer of an
in-flight connect attempt act unconditionally, so a connect attempt already
in flight when shutdown occurs still issues its connection. -/
theorem c8_amended (pingOk : Bool) :
    fireDeferred false pingOk .reconnectTimer = (false, []) ∧
    (fireDeferred false pingOk .pingDone).2 = [.joinDelayTimer] ∧
    (fireDeferred false pingOk .pingFailed).1 = true ∧
    (fireDeferred false pingOk .joinDelayTimer).1 = true := by
  exact ⟨rfl, rfl, rfl, rfl⟩

/-- Claim C2 counterexample: the inbound AuthMe text
`Please, login with the command /login <password>` matches both the
`/login` branch and the `Please, login with the command` branch, so the
session emits TWO identical `/login` replies for this single message —
not exactly one, and not first-match-wins. -/
theorem c2_counterexample :
    autoRespond "StormX" "Please, login with the command /login <password>" =
      ["/login XmrotS", "/login XmrotS"] ∧
    ¬ (autoRespond "StormX" "Please, login with the command /login <password>").length ≤ 1 := by
  refine ⟨rfl, ?_⟩
  decide

/-- Claim C2 (amended): the auto-responder emits one reply per matching
pattern with no first-match short-circuit; for the AuthMe prompt it emits
exactly two chat calls, both `/login` followed by the reversed-username
password, whatever the username is. -/
theorem c2_amended (username : String) :
    autoRespond username "Please, login with the command /login <password>" =
      ["/login " ++ reverseStr username, "/login " ++ reverseStr username] ∧
    (autoRespond username "Please, login with the command /login <password>").length = 2 := by
  have h1 : includesStr "Please, login with the command /login <password>" "/register" = false := rfl
  have h2 : includesStr "Please, login with the command /login <password>" "/login" = true := rfl
  have h3 : includesStr "Please, login with the command /login <password>"
      "Please, login with the command" = true := rfl
  have h4 : includesStr "Please, login with the command /login <password>" "premium" = false := rfl
  constructor <;> simp [autoRespond, h1, h2, h3, h4]

/-- Successor step of remainders by a positive modulus. -/
lemma succ_mod_eq (m k : Nat) (hk : 0 < k) :
    (m + 1) % k = if m % k + 1 = k then 0 else m % k + 1 := by
  rcases Nat.lt_or_ge 1 k with h | h
  · rw [Nat.add_mod, Nat.mod_eq_of_lt h]
    by_cases hc : m % k + 1 = k
    · rw [if_pos hc, hc, Nat.mod_self]
    · have hmk : m % k < k := Nat.mod_lt m hk
      rw [if_neg hc, Nat.mod_eq_of_lt (by omega)]
  · have hk1 : k = 1 := by omega
    subst hk1
    simp [Nat.mod_one]

/-- Successor step of quotients by a positive modulus. -/
lemma succ_div_if (m k : Nat) (hk : 0 < k) :
    (m + 1) / k = if m % k + 1 = k then m / k + 1 else m / k := by
  rw [Nat.succ_div]
  have hmod := succ_mod_eq m k hk
  by_cases hc : m % k + 1 = k
  · rw [if_pos hc, if_pos]
    exact (Nat.dvd_iff_mod_eq_zero).mpr (by rw [hmod, if_pos hc])
  · rw [if_neg hc, if_neg, Nat.add_zero]
    intro hdvd
    have h0 : (m + 1) % k = 0 := (Nat.dvd_iff_mod_eq_zero).mp hdvd
    rw [hmod, if_neg hc] at h0
    omega

/-- One more session index adds one to the count of exactly its residue. -/
lemma rrCount_succ (m k j : Nat) :
    rrCount (m + 1) k j = rrCount m k j + if m % k = j then 1 else 0 := by
  unfold rrCount
  rw [List.range_succ, List.filter_append, List.length_append]
  by_cases h : m % k = j <;> simp [h]

/-- Closed form of the round-robin count: residue `j` receives one extra
session exactly while `j` is below the remainder. -/
lemma rrCount_formula (k : Nat) (hk : 0 < k) (m j : Nat) (hj : j < k) :
    rrCount m k j = m / k + if j < m % k then 1 else 0 := by
  induction m with
  | zero => simp [rrCount]
  | succ m ih =>
    rw [rrCount_succ, ih, succ_div_if m k hk, succ_mod_eq m k hk]
    have hmk : m % k < k := Nat.mod_lt m hk
    by_cases hc : m % k + 1 = k
    · rw [if_pos hc, if_pos hc]
      split_ifs <;> omega
    · rw [if_neg hc, if_neg hc]
      split_ifs <;> omega

/-- When `k` does not divide `m`, the ceiling of `m / k` is the floor plus 1. -/
lemma ceil_div_of_mod_pos (m k : Nat) (hk : 0 < k) (hr : m % k ≠ 0) :
    (m + k - 1) / k = m / k + 1 := by
  have hdm := Nat.div_add_mod m k
  have hlt : m % k < k := Nat.mod_lt m hk
  have h1 : m + k - 1 = k * (m / k + 1) + (m % k - 1) := by
    have hmul : k * (m / k + 1) = k * (m / k) + k := by ring
    rw [hmul]
    generalize k * (m / k) = A at hdm ⊢
    omega
  have h3 : (m % k - 1) / k = 0 := Nat.div_eq_of_lt (by omega)
  rw [h1, Nat.mul_add_div hk, h3, Nat.add_zero]

/-- When `k` divides `m`, the ceiling of `m / k` equals the floor. -/
lemma ceil_div_of_mod_zero (m k : Nat) (hk : 0 < k) (hr : m % k = 0) :
    (m + k - 1) / k = m / k := by
  have hdm := Nat.div_add_mod m k
  have h1 : m + k - 1 = k * (m / k) + (k - 1) := by
    generalize k * (m / k) = A at hdm ⊢
    omega
  have h3 : (k - 1) / k = 0 := Nat.div_eq_of_lt (by omega)
  rw [h1, Nat.mul_add_div hk, h3, Nat.add_zero]

/-- Claim C6 counterexample, against the botattack.js `spawnBot`
(`workingProxies[botIndex] || null`): with k = 2 verified proxies and m = 3
sessions, session index 2 gets no relay although verified proxies exist; and
with m = 5 sessions the first proxy is assigned to exactly 1 session, which is
neither the floor 2 nor the ceiling 3 of 5 / 2 — the claimed round-robin
fairness fails for this variant. -/
theorem c6_counterexample :
    assignProxySeq ["1.1.1.1:1080", "2.2.2.2:1080"] 2 = none ∧
    ¬ (["1.1.1.1:1080", "2.2.2.2:1080"] : List String).length = 0 ∧
    ((List.range 5).filter
        (fun i => assignProxySeq ["1.1.1.1:1080", "2.2.2.2:1080"] i ==
          some "1.1.1.1:1080")).length = 1 ∧
    ¬ (1 = 5 / 2 ∨ 1 = (5 + 2 - 1) / 2) := by
  refine ⟨rfl, by decide, ?_, by decide⟩
  rfl

/-- Claim C6 (amended): the round-robin fairness holds for the ass.js
`spawnBot`, whose assignment is `workingProxies[botIndex % length] || null`:
with a non-empty verified list of length k (all entries non-empty strings),
session i is assigned exactly the proxy at position i mod k, every session
gets a proxy, and for any m the number of session indices below m assigned to
position j is either the floor or the ceiling of m / k.  The botattack.js
`spawnBot` instead assigns by plain index, so only the first k sessions are
proxied there (see the counterexample). -/
theorem c6_amended (ps : List String) (m j : Nat) (hk : 0 < ps.length)
    (hj : j < ps.length) (hne : ∀ p ∈ ps, ¬ p = "") :
    (∀ i, assignProxyRR ps i = ps.get? (i % ps.length)) ∧
    (∀ i, ¬ assignProxyRR ps i = none) ∧
    (rrCount m ps.length j = m / ps.length ∨
     rrCount m ps.length j = (m + ps.length - 1) / ps.length) := by
  have hget : ∀ i : Nat, ∃ p, ps.get? (i % ps.length) = some p ∧ p ∈ ps := by
    intro i
    have hlt : i % ps.length < ps.length := Nat.mod_lt i hk
    exact ⟨ps.get ⟨i % ps.length, hlt⟩, List.get?_eq_get hlt, List.get_mem ps _ hlt⟩
  refine ⟨?_, ?_, ?_⟩
  · intro i
    obtain ⟨p, hp, hmem⟩ := hget i
    unfold assignProxyRR
    rw [hp]
    simp [jsOrNull, hne p hmem]
  · intro i
    obtain ⟨p, hp, hmem⟩ := hget i
    unfold assignProxyRR
    rw [hp]
    simp [jsOrNull, hne p hmem]
  · have hform := rrCount_formula ps.length hk m j hj
    by_cases hlt : j < m % ps.length
    · right
      rw [hform, if_pos hlt, ceil_div_of_mod_pos m ps.length hk (by omega)]
    · left
      rw [hform, if_neg hlt, Nat.add_zero]

/-- Witness for C6 (amended) at two concrete verified proxies and five
sessions: proxy position 0 receives the floor or the ceiling of 5 / 2. -/
theorem c6_witness :
    rrCount 5 2 0 = 5 / 2 ∨ rrCount 5 2 0 = (5 + 2 - 1) / 2 := by
  exact (c6_amended ["1.1.1.1:1080", "2.2.2.2:1080"] 5 0 (by decide) (by decide)
    (by decide)).2.2

/-- Dropping a while-matched front keeps a sublist. -/
lemma dropWhile_sub (p : Char → Bool) (l : List Char) : List.Sublist (l.dropWhile p) l :=
  List.dropWhile_sublist p

/-- Characters of a trimmed string are characters of the original. -/
lemma mem_of_mem_jsTrim (c : Char) (s : String) (h : c ∈ (jsTrim s).data) : c ∈ s.data := by
  unfold jsTrim at h
  simp only [List.mem_reverse] at h
  have h1 := (dropWhile_sub isJsSpace _).subset h
  simp only [List.mem_reverse] at h1
  exact (dropWhile_sub isJsSpace _).subset h1

/-- A successful digit parse returns a sublist of its input. -/
lemma chompDigits_sub (cs r : List Char) (h : chompDigits cs = some r) : List.Sublist r cs := by
  cases cs with
  | nil => simp [chompDigits] at h
  | cons c cs =>
    simp only [chompDigits] at h
    by_cases hd : c.isDigit = true
    · rw [if_pos hd] at h
      injection h with h
      rw [← h]
      exact (dropWhile_sub Char.isDigit cs).trans (List.sublist_cons_self c cs)
    · rw [if_neg hd] at h
      cases h

/-- A successful separator parse witnesses the separator in the input and
returns a sublist. -/
lemma expect_eq (x : Char) (cs r : List Char) (h : expect x cs = some r) :
    x ∈ cs ∧ List.Sublist r cs := by
  cases cs with
  | nil => simp [expect] at h
  | cons c cs =>
    simp only [expect] at h
    by_cases hc : c = x
    · rw [if_pos hc] at h
      injection h with h
      rw [← h]
      exact ⟨by rw [← hc]; exact List.mem_cons_self c cs, List.sublist_cons_self c cs⟩
    · rw [if_neg hc] at h
      cases h

/-- A successful group parse returns a sublist of its input. -/
lemma chompGroup_sub (sep : Char) (cs r : List Char) (h : chompGroup sep cs = some r) :
    List.Sublist r cs := by
  obtain ⟨r1, h1, h2⟩ := Option.bind_eq_some.mp h
  exact ((expect_eq sep r1 r h2).2).trans (chompDigits_sub cs r1 h1)

/-- A successful group parse witnesses its separator in the input. -/
lemma chompGroup_mem (sep : Char) (cs r : List Char) (h : chompGroup sep cs = some r) :
    sep ∈ cs := by
  obtain ⟨r1, h1, h2⟩ := Option.bind_eq_some.mp h
  exact (chompDigits_sub cs r1 h1).subset (expect_eq sep r1 r h2).1

/-- A line matching the ip:port shape contains a colon. -/
lemma isProxyLine_colon (s : String) (h : isProxyLine s = true) : ':' ∈ s.data := by
  unfold isProxyLine at h
  cases hshape : ipPortShape s.data with
  | none => rw [hshape] at h; cases h
  | some r =>
    cases r with
    | cons a r => rw [hshape] at h; cases h
    | nil =>
      unfold ipPortShape at hshape
      obtain ⟨r4, h4, _⟩ := Option.bind_eq_some.mp hshape
      obtain ⟨r3, h3, hD⟩ := Option.bind_eq_some.mp h4
      obtain ⟨r2, h2, hC⟩ := Option.bind_eq_some.mp h3
      obtain ⟨r1, h1, hB⟩ := Option.bind_eq_some.mp h2
      have hmem : ':' ∈ r3 := chompGroup_mem ':' r3 r4 hD
      have hsub : List.Sublist r3 s.data :=
        ((chompGroup_sub '.' r2 r3 hC).trans (chompGroup_sub '.' r1 r2 hB)).trans
          (chompGroup_sub '.' s.data r1 h1)
      exact hsub.subset hmem

/-- Membership in the per-source endpoint list: exactly the trimmed lines of
the body that match the ip:port shape (the colon pre-filter of the source
drops nothing, because a shape match guarantees a colon in the line). -/
lemma mem_fetchFromUrl (x d : String) :
    x ∈ fetchFromUrl d ↔
      isProxyLine x = true ∧ ∃ l ∈ jsSplitNewline d, jsTrim l = x := by
  unfold fetchFromUrl
  simp only [List.mem_filter, List.mem_map, List.mem_filter]
  constructor
  · rintro ⟨⟨l, ⟨hl, _⟩, hx⟩, hproxy⟩
    exact ⟨hproxy, l, hl, hx⟩
  · rintro ⟨hproxy, l, hl, hx⟩
    refine ⟨⟨l, ⟨hl, ?_⟩, hx⟩, hproxy⟩
    have hc : ':' ∈ (jsTrim l).data := by
      rw [hx]
      exact isProxyLine_colon x hproxy
    have hcl : ':' ∈ l.data := mem_of_mem_jsTrim ':' l hc
    unfold hasColon
    rw [List.any_eq_true]
    exact ⟨':', hcl, by simp⟩

/-- Membership in the gathered candidates: contributed by some successful
source. -/
lemma mem_gather_aux (rs : List (Option String)) (acc : List String) (x : String) :
    x ∈ rs.foldl
        (fun acc r => match r with | some d => acc ++ fetchFromUrl d | none => acc) acc ↔
      x ∈ acc ∨ ∃ d, some d ∈ rs ∧ x ∈ fetchFromUrl d := by
  induction rs generalizing acc with
  | nil => simp
  | cons r rs ih =>
    cases r with
    | none =>
      rw [List.foldl_cons, ih]
      simp
    | some d =>
      rw [List.foldl_cons, ih]
      simp only [List.mem_append, List.mem_cons, Option.some.injEq]
      constructor
      · rintro ((h | h) | ⟨e, he, hx⟩)
        · exact Or.inl h
        · exact Or.inr ⟨d, Or.inl rfl, h⟩
        · exact Or.inr ⟨e, Or.inr he, hx⟩
      · rintro (h | ⟨e, (he | he), hx⟩)
        · exact Or.inl (Or.inl h)
        · exact Or.inl (Or.inr (he ▸ hx))
        · exact Or.inr ⟨e, he, hx⟩

/-- The Set-insertion fold preserves distinctness. -/
lemma dedup_aux_nodup (l acc : List String) (h : acc.Nodup) :
    (l.foldl (fun acc x => if x ∈ acc then acc else acc ++ [x]) acc).Nodup := by
  induction l generalizing acc with
  | nil => exact h
  | cons y l ih =>
    rw [List.foldl_cons]
    by_cases hy : y ∈ acc
    · rw [if_pos hy]
      exact ih acc h
    · rw [if_neg hy]
      refine ih _ ?_
      simp [List.nodup_append, h, hy]

/-- The Set-insertion fold keeps exactly the elements seen. -/
lemma dedup_aux_mem (l acc : List String) (x : String) :
    x ∈ l.foldl (fun acc x => if x ∈ acc then acc else acc ++ [x]) acc ↔
      x ∈ acc ∨ x ∈ l := by
  induction l generalizing acc with
  | nil => simp
  | cons y l ih =>
    rw [List.foldl_cons]
    by_cases hy : y ∈ acc
    · rw [if_pos hy, ih]
      simp only [List.mem_cons]
      constructor
      · rintro (h | h)
        · exact Or.inl h
        · exact Or.inr (Or.inr h)
      · rintro (h | h | h)
        · exact Or.inl h
        · exact Or.inl (h ▸ hy)
        · exact Or.inr h
    · rw [if_neg hy, ih]
      simp only [List.mem_append, List.mem_cons, List.mem_singleton]
      tauto

/-- Claim C7: the collected candidates are distinct (no duplicates across
sources), consist of exactly the trimmed lines of the successful sources that
match the strict ip:port shape (malformed lines dropped silently), the size
therefore equals the number of distinct ip:port strings, and a failed source
(`none`) contributes zero endpoints without surfacing an error
(src/ass.js lines 227-280). -/
theorem c7_holds (results rs₁ rs₂ : List (Option String)) :
    (fetchProxiesWithProgress results).Nodup ∧
    (∀ x, x ∈ fetchProxiesWithProgress results ↔
      isProxyLine x = true ∧ ∃ d, some d ∈ results ∧ ∃ l ∈ jsSplitNewline d, jsTrim l = x) ∧
    (fetchProxiesWithProgress results).length =
      (fetchProxiesWithProgress results).toFinset.card ∧
    fetchProxiesWithProgress (rs₁ ++ none :: rs₂) = fetchProxiesWithProgress (rs₁ ++ rs₂) := by
  refine ⟨dedup_aux_nodup _ _ List.nodup_nil, ?_, ?_, ?_⟩
  · intro x
    unfold fetchProxiesWithProgress jsSetDedup gatherAll
    rw [dedup_aux_mem, mem_gather_aux]
    simp only [List.not_mem_nil, false_or]
    constructor
    · rintro ⟨d, hd, hx⟩
      obtain ⟨hproxy, l, hl, hlx⟩ := (mem_fetchFromUrl x d).mp hx
      exact ⟨hproxy, d, hd, l, hl, hlx⟩
    · rintro ⟨hproxy, d, hd, l, hl, hlx⟩
      exact ⟨d, hd, (mem_fetchFromUrl x d).mpr ⟨hproxy, l, hl, hlx⟩⟩
  · exact (List.toFinset_card_of_nodup (dedup_aux_nodup _ _ List.nodup_nil)).symm
  · unfold fetchProxiesWithProgress gatherAll
    rw [List.foldl_append, List.foldl_append, List.foldl_cons]

example : isProxyLine "12.34.56.78:9" = true := by decide

example : isProxyLine "1.2.3:80" = false := by decide

example : jsTrim "  1.2.3.4:80\r" = "1.2.3.4:80" := by decide

example :
    fetchProxiesWithProgress
        [some "1.2.3.4:80\n5.6.7.8:443", none, some "5.6.7.8:443\n9.9.9.9:1080"] =
      ["1.2.3.4:80", "5.6.7.8:443", "9.9.9.9:1080"] := by decide

